import Mathlib

/-!
Verification of the optimization search-and-evaluation engine in
`evolve/code_optimizations.py` (redis-rust repository).

The Python module is shallowly embedded: Python `float` is modelled as `ℚ`
(the module only ever adds, multiplies and divides benchmark times and
gains, so rational arithmetic is exact); Python `dict`s (which preserve
insertion order) are modelled as association lists `List (String × _)`;
raising an exception is modelled with `Except`; the external `cargo bench`
subprocess is modelled as an `ExternalRun` value describing its observable
outcome (whether it timed out, its exit code, and the benchmark timings
parsed from its stdout — the regex scraping of the textual report is
peripheral I/O and enters the model as the already-parsed mapping).
Python's `list.sort` is a stable sort and is modelled by Mathlib's stable
`List.insertionSort`; its output is uniquely determined by sortedness plus
stability, so this is extensionally the sort the code performs.
-/

/-- Substring test, Python's `needle in hay` on strings. -/
def strContains (hay needle : String) : Bool :=
  (List.range (hay.data.length + 1)).any fun i => needle.data.isPrefixOf (hay.data.drop i)

/-- Association-list lookup, Python's `m[k]` / `k in m` on a dict. -/
def lookup (m : List (String × ℚ)) (k : String) : Option ℚ :=
  (m.find? fun p => p.1 == k).map Prod.snd

/-- Python dict update `{**m, k: v}`: an existing key keeps its position and
gets the new value, a new key is appended at the end. -/
def dictSet (m : List (String × Bool)) (k : String) (v : Bool) : List (String × Bool) :=
  if m.any fun p => p.1 == k then
    m.map fun p => if p.1 == k then (p.1, v) else p
  else
    m ++ [(k, v)]

/-- Replace every occurrence of `pat` in a character list (Python
`str.replace`), with an explicit fuel bound for structural recursion. -/
def replaceCharsAux (pat rep : List Char) : Nat → List Char → List Char
  | 0, s => s
  | _ + 1, [] => []
  | fuel + 1, c :: rest =>
    if pat.isPrefixOf (c :: rest) then
      rep ++ replaceCharsAux pat rep fuel (List.drop (pat.length - 1) rest)
    else
      c :: replaceCharsAux pat rep fuel rest

/-- Python `s.replace(pat, rep)` for a nonempty pattern. -/
def strReplace (s pat rep : String) : String :=
  ⟨replaceCharsAux pat.data rep.data s.data.length s.data⟩

/-- Model of `CodeOptimization` dataclass (source lines 20-32). -/
structure CodeOptimization where
  name : String
  description : String
  expected_gain : ℚ
  risk : String
  files_modified : List String
  priority : Nat

/-- Registry entry of source lines 37-44.  The float gain 0.04 is the exact
rational 4/100 (likewise for the other entries below). -/
def optSingleKeyAlloc : CodeOptimization :=
  { name := "opt-single-key-alloc"
    description := "Single allocation in set_direct (eliminate double key.to_string())"
    expected_gain := 4/100
    risk := "low"
    files_modified := ["src/redis/commands.rs"]
    priority := 0 }

/-- Registry entry of source lines 45-52. -/
def optStaticResponses : CodeOptimization :=
  { name := "opt-static-responses"
    description := "Static OK/PONG responses instead of allocating each time"
    expected_gain := 15/1000
    risk := "low"
    files_modified := ["src/redis/commands.rs"]
    priority := 1 }

/-- Registry entry of source lines 53-60. -/
def optZeroCopyGet : CodeOptimization :=
  { name := "opt-zero-copy-get"
    description := "Zero-copy GET response using Bytes/Arc instead of Vec clone"
    expected_gain := 25/1000
    risk := "medium"
    files_modified := ["src/redis/commands.rs", "src/redis/data.rs"]
    priority := 2 }

/-- Registry entry of source lines 61-68. -/
def optItoaEncode : CodeOptimization :=
  { name := "opt-itoa-encode"
    description := "Use itoa crate for fast integer encoding in RESP responses"
    expected_gain := 15/1000
    risk := "low"
    files_modified := ["src/production/connection_optimized.rs"]
    priority := 3 }

/-- Registry entry of source lines 69-76. -/
def optFxhashRouting : CodeOptimization :=
  { name := "opt-fxhash-routing"
    description := "Use FxHash/AHash for faster shard routing"
    expected_gain := 15/1000
    risk := "low"
    files_modified := ["src/production/sharded_actor.rs"]
    priority := 4 }

/-- Registry entry of source lines 77-84. -/
def optAtoiParse : CodeOptimization :=
  { name := "opt-atoi-parse"
    description := "Use atoi crate for fast integer parsing from bytes"
    expected_gain := 3/100
    risk := "low"
    files_modified := ["src/production/connection_optimized.rs"]
    priority := 5 }

/-- Model of `CODE_OPTIMIZATIONS` registry (source lines 36-85), in the
insertion order of the Python dict literal. -/
def CODE_OPTIMIZATIONS : List (String × CodeOptimization) :=
  [ ("opt-single-key-alloc", optSingleKeyAlloc),
    ("opt-static-responses", optStaticResponses),
    ("opt-zero-copy-get", optZeroCopyGet),
    ("opt-itoa-encode", optItoaEncode),
    ("opt-fxhash-routing", optFxhashRouting),
    ("opt-atoi-parse", optAtoiParse) ]

/-- Model of `OptimizationCandidate` dataclass (source lines 88-145).  `enabled` is
the insertion-ordered name-to-bool dict. -/
structure OptimizationCandidate where
  enabled : List (String × Bool)
  fitness : Option ℚ
  generation : Nat

/-- Model of `feature_flags` (source lines 95-97): the enabled names in the dict's
own iteration order. -/
def OptimizationCandidate.feature_flags (c : OptimizationCandidate) : List String :=
  (c.enabled.filter fun p => p.2).map Prod.fst

/-- Model of `cargo_features` (source lines 99-104). -/
def OptimizationCandidate.cargo_features (c : OptimizationCandidate) : String :=
  let flags := c.feature_flags
  if flags ≠ [] then String.intercalate "," flags else ""

/-- Model of `expected_total_gain` (source lines 106-112). -/
def expected_total_gain (c : OptimizationCandidate) : ℚ :=
  c.enabled.foldl
    (fun total p =>
      if p.2 then
        match (CODE_OPTIMIZATIONS.find? fun q => q.1 == p.1) with
        | some q => total + q.2.expected_gain
        | none => total
      else total)
    0

/-- Model of `summary` (source lines 114-117). -/
def OptimizationCandidate.summary (c : OptimizationCandidate) : String :=
  let enabled := c.feature_flags.map fun n => strReplace n "opt-" ""
  let inner := String.intercalate ", " enabled
  "[" ++ (if inner = "" then "baseline" else inner) ++ "]"

/-- Model of `to_dict` (source lines 119-126). -/
structure CandidateDict where
  enabled : List (String × Bool)
  fitness : Option ℚ
  generation : Nat
  expected_gain : ℚ

/-- Model of `to_dict` (source lines 119-126). -/
def to_dict (c : OptimizationCandidate) : CandidateDict :=
  { enabled := c.enabled
    fitness := c.fitness
    generation := c.generation
    expected_gain := expected_total_gain c }

/-- Model of `OptimizationCandidate.baseline` (source lines 137-140). -/
def OptimizationCandidate.baseline : OptimizationCandidate :=
  { enabled := CODE_OPTIMIZATIONS.map fun p => (p.1, false)
    fitness := none
    generation := 0 }

/-- Model of `OptimizationCandidate.all_enabled` (source lines 142-145). -/
def OptimizationCandidate.all_enabled : OptimizationCandidate :=
  { enabled := CODE_OPTIMIZATIONS.map fun p => (p.1, true)
    fitness := none
    generation := 0 }

/-- The observable outcome of one external `cargo bench` subprocess run
(source lines 190-215): whether `subprocess.run(..., timeout=300)` raised
`TimeoutExpired`, the exit code, and the benchmark-to-nanoseconds mapping
that `_parse_criterion_output` extracts from its stdout (the regex scraping
itself is peripheral parsing of the collaborator's text report). -/
structure ExternalRun where
  timedOut : Bool
  returncode : Int
  parsed : List (String × ℚ)

/-- The only exception `_run_criterion_bench` itself can raise:
`subprocess.TimeoutExpired` escaping `subprocess.run`. -/
inductive BenchError where
  | timeout
deriving DecidableEq

/-- Model of `_run_criterion_bench` (source lines 190-215): a timeout propagates as
an exception; a non-zero exit is logged and yields the empty mapping;
otherwise the parsed results are returned. -/
def run_criterion_bench (run : ExternalRun) : Except BenchError (List (String × ℚ)) :=
  if run.timedOut then Except.error BenchError.timeout
  else if run.returncode ≠ 0 then Except.ok []
  else Except.ok run.parsed

/-- Model of `CriterionEvaluator`'s state (source lines 148-157): the memoized
`_baseline_results`. -/
structure CriterionEvaluator where
  baseline_results : Option (List (String × ℚ))

/-- Model of `capture_baseline` (source lines 159-164): runs the benchmarks with no
features, caches and returns the result. -/
def capture_baseline (ev : CriterionEvaluator) (run : ExternalRun) :
    Except BenchError (CriterionEvaluator × List (String × ℚ)) :=
  match run_criterion_bench run with
  | Except.error e => Except.error e
  | Except.ok results => Except.ok ({ ev with baseline_results := some results }, results)

/-- The relative-performance dict built by `evaluate` (source lines
179-188): one entry per benchmark of the fresh run, ratio
`baseline / time_ns` when the time is positive and the benchmark is in the
baseline, `1.0` when the time is non-positive, and `1.0` when the
benchmark is absent from the baseline. -/
def relativeResults (baseline results : List (String × ℚ)) : List (String × ℚ) :=
  results.map fun p =>
    match lookup baseline p.1 with
    | some b => (p.1, if (0 : ℚ) < p.2 then b / p.2 else 1)
    | none => (p.1, 1)

/-- Model of `evaluate` (source lines 166-188): runs the candidate's benchmarks
(`candRun`), lazily captures the baseline (`baseRun`) if it is not cached,
and returns the relative-performance mapping together with the evaluator
state. -/
def evaluate (ev : CriterionEvaluator) (cand : OptimizationCandidate)
    (candRun baseRun : ExternalRun) :
    Except BenchError (CriterionEvaluator × List (String × ℚ)) :=
  let _features := cand.feature_flags
  match run_criterion_bench candRun with
  | Except.error e => Except.error e
  | Except.ok results =>
    match ev.baseline_results with
    | some base => Except.ok (ev, relativeResults base results)
    | none =>
      match capture_baseline ev baseRun with
      | Except.error e => Except.error e
      | Except.ok (ev', base) => Except.ok (ev', relativeResults base results)

/-- The outcome the strategy observes from one `evaluate` call: the
relative-performance dict, or an exception caught by the strategy's
`except` block. -/
inductive EvalOutcome where
  | ok (relative : List (String × ℚ))
  | fail (msg : String)

def EvalOutcome.isOk : EvalOutcome → Bool
  | .ok _ => true
  | .fail _ => false

/-- The hot-path substrings (source lines 311 and 390). -/
def hot_paths : List String := ["set_direct", "get_direct"]

/-- Source lines 312-314 and 391-393 (identical in both strategies): the
ratios of the benchmarks whose id contains a hot-path substring, averaged,
defaulting to 1.0 when none match. -/
def avg_improvement (relative : List (String × ℚ)) : ℚ :=
  let relevant := (relative.filter fun p => hot_paths.any fun hp => strContains p.1 hp).map Prod.snd
  if relevant.isEmpty then 1 else relevant.sum / (relevant.length : ℚ)

/-- The fitness a candidate carries once scored: along every run path the
code has already assigned `fitness` before reading it (Python would raise
`TypeError` otherwise), so the default is never observed. -/
def fitval (c : OptimizationCandidate) : ℚ := c.fitness.getD 0

/-- One history dict appended by `run_incremental` (source lines 331-337
for a completed step, lines 341-344 for a failed one). -/
inductive IncHistoryEntry where
  | step (optimization : String) (tested_fitness : ℚ) (accepted : Bool) (current_best : ℚ)
  | error (optimization : String) (message : String)

def IncHistoryEntry.isError : IncHistoryEntry → Bool
  | .step _ _ _ _ => false
  | .error _ _ => true

def IncHistoryEntry.tested : IncHistoryEntry → ℚ
  | .step _ f _ _ => f
  | .error _ _ => 0

/-- The mutable state of `run_incremental`'s loop: `current`, `self._best`,
`self._history`, plus the trace of candidates passed to
`criterion_eval.evaluate` (the observable "this candidate was evaluated"). -/
structure IncState where
  current : OptimizationCandidate
  best : OptimizationCandidate
  history : List IncHistoryEntry
  evalCalls : List OptimizationCandidate

/-- The test candidate built at source lines 301-304. -/
def testCandidate (st : IncState) (opt : CodeOptimization) : OptimizationCandidate :=
  { enabled := dictSet st.current.enabled opt.name true
    fitness := none
    generation := opt.priority + 1 }

/-- Source lines 322-337: accept on strict improvement (updating `current`
and `self._best`), then append the history dict.  The history dict's
`accepted` and `current_best` fields are computed AFTER the possible
reassignment `current = test`, exactly as in the source. -/
def incAccept (st : IncState) (test : OptimizationCandidate) (opt : CodeOptimization) : IncState :=
  let current := if fitval test > fitval st.current then test else st.current
  let best := if fitval test > fitval st.current then current else st.best
  { current := current
    best := best
    history := st.history ++
      [IncHistoryEntry.step opt.name (fitval test)
        (decide (fitval test > fitval current)) (fitval current)]
    evalCalls := st.evalCalls }

/-- One iteration of `run_incremental`'s loop (source lines 293-344). -/
def incStep (useCriterion : Bool) (outcome : EvalOutcome) (st : IncState)
    (opt : CodeOptimization) : IncState :=
  let test := testCandidate st opt
  if useCriterion then
    let st := { st with evalCalls := st.evalCalls ++ [test] }
    match outcome with
    | EvalOutcome.ok relative =>
      incAccept st { test with fitness := some (fitval st.current * avg_improvement relative) } opt
    | EvalOutcome.fail msg =>
      { st with history := st.history ++ [IncHistoryEntry.error opt.name msg] }
  else
    incAccept st { test with fitness := some (fitval st.current * (1 + opt.expected_gain)) } opt

/-- Model of `sorted(CODE_OPTIMIZATIONS.values(), key=lambda o: o.priority)`
(source lines 278-281), Python's stable sort modelled as insertion sort. -/
def optsByPriority : List CodeOptimization :=
  List.insertionSort (fun a b => a.priority ≤ b.priority) (CODE_OPTIMIZATIONS.map Prod.snd)

/-- The loop of `run_incremental` over the priority-ordered optimizations;
the `Nat` argument indexes the per-step evaluation outcome. -/
def incLoop (useCriterion : Bool) (oracle : Nat → EvalOutcome) :
    Nat → List CodeOptimization → IncState → IncState
  | _, [], st => st
  | i, opt :: rest, st =>
    incLoop useCriterion oracle (i + 1) rest (incStep useCriterion (oracle i) st opt)

/-- The initial state of `run_incremental` (source lines 283-291):
`current` = the baseline candidate with fitness 100, `self._best = current`. -/
def incInit : IncState :=
  { current := { OptimizationCandidate.baseline with fitness := some 100 }
    best := { OptimizationCandidate.baseline with fitness := some 100 }
    history := []
    evalCalls := [] }

/-- Model of `run_incremental` (source lines 268-349).  In criterion mode the
baseline is captured first, OUTSIDE the per-candidate `try` (source lines
286-288), so a `TimeoutExpired` there aborts the whole run; per-candidate
evaluation outcomes are supplied by `oracle`. -/
def runIncremental (useCriterion : Bool) (baselineRun : ExternalRun)
    (oracle : Nat → EvalOutcome) : Except BenchError IncState :=
  if useCriterion then
    match run_criterion_bench baselineRun with
    | Except.error e => Except.error e
    | Except.ok _ => Except.ok (incLoop true oracle 0 optsByPriority incInit)
  else
    Except.ok (incLoop false oracle 0 optsByPriority incInit)

/-- One history dict appended by `run_combinatorial` (source lines 403-407).
Note there is no error-shaped entry: the `except` block at lines 409-410
only logs. -/
structure CombHistoryEntry where
  combination : String
  fitness : ℚ
  enabled : List (String × Bool)

/-- The mutable state of `run_combinatorial`'s loop. -/
structure CombState where
  best : Option OptimizationCandidate
  history : List CombHistoryEntry
  evalCalls : List OptimizationCandidate

/-- Source lines 397-407: update `best` on strict improvement (first
candidate always becomes best) and append the history dict. -/
def combRecord (st : CombState) (cand : OptimizationCandidate) : CombState :=
  let best :=
    match st.best with
    | none => some cand
    | some b => if fitval cand > fitval b then some cand else some b
  { st with
    best := best
    history := st.history ++ [{ combination := cand.summary, fitness := fitval cand, enabled := cand.enabled }] }

/-- One iteration of `run_combinatorial`'s loop (source lines 382-410).
A failed evaluation is only logged: no history entry, no state change. -/
def combStep (useCriterion : Bool) (outcome : EvalOutcome) (st : CombState)
    (cand : OptimizationCandidate) : CombState :=
  if useCriterion then
    let st := { st with evalCalls := st.evalCalls ++ [cand] }
    match outcome with
    | EvalOutcome.ok relative =>
      combRecord st { cand with fitness := some (100 * avg_improvement relative) }
    | EvalOutcome.fail _ => st
  else
    combRecord st { cand with fitness := some (100 * (1 + expected_total_gain cand)) }

/-- Model of `itertools.combinations(l, r)`: the length-`r` subsequences of `l` in
lexicographic order of positions, exactly itertools' emission order. -/
def combinations : Nat → List α → List (List α)
  | 0, _ => [[]]
  | _ + 1, [] => []
  | r + 1, x :: xs => ((combinations r xs).map fun c => x :: c) ++ combinations (r + 1) xs

/-- The registry's name list (source line 363). -/
def all_opts : List String := CODE_OPTIMIZATIONS.map Prod.fst

/-- The power-set enumeration of candidates (source lines 364-371):
for r = 0..N, for each combination, the candidate enabling exactly it. -/
def powerCandidates : List OptimizationCandidate :=
  (List.range (all_opts.length + 1)).flatMap fun r =>
    (combinations r all_opts).map fun combo =>
      { enabled := all_opts.map fun name => (name, combo.contains name)
        fitness := none
        generation := 0 }

/-- The stable descending sort of source line 374
(`candidates.sort(key=..., reverse=True)`; Python documents that
`reverse=True` preserves stability, so equal-gain candidates keep their
enumeration order). -/
abbrev gainOrder (a b : OptimizationCandidate) : Prop :=
  expected_total_gain b ≤ expected_total_gain a

/-- Sorted candidates, then truncation to the budget (source lines 374-377). -/
def budgetedCandidates (budget : Nat) : List OptimizationCandidate :=
  (List.insertionSort gainOrder powerCandidates).take budget

/-- The loop of `run_combinatorial` over the retained candidates. -/
def combLoop (useCriterion : Bool) (oracle : Nat → EvalOutcome) :
    Nat → List OptimizationCandidate → CombState → CombState
  | _, [], st => st
  | i, cand :: rest, st =>
    combLoop useCriterion oracle (i + 1) rest (combStep useCriterion (oracle i) st cand)

/-- Model of `run_combinatorial` (source lines 351-415). -/
def runCombinatorial (useCriterion : Bool) (budget : Nat)
    (oracle : Nat → EvalOutcome) : CombState :=
  combLoop useCriterion oracle 0 (budgetedCandidates budget)
    { best := none, history := [], evalCalls := [] }

/-- The JSON snapshot written by `_save_results` (source lines 417-452),
minus the wall-clock timestamps (peripheral I/O).  `script` models the
`best_features.sh` artifact: written (with the winning feature string)
only when a best candidate exists. -/
structure SavedResults (α : Type) where
  best_candidate : Option CandidateDict
  best_features : List String
  history : List α
  script : Option String

/-- Model of `_save_results` (source lines 417-452). -/
def save_results (best : Option OptimizationCandidate) (history : List α) : SavedResults α :=
  { best_candidate := best.map to_dict
    best_features := match best with | some b => b.feature_flags | none => []
    history := history
    script := best.map fun b => b.cargo_features }

/-- Stated from the spec's words (§4.3, claim C7), to be compared with the
code's computation: "fitness = previous_fitness * mean(ratio for every
benchmark whose id contains at least one hot substring); if no benchmark
matches, the mean defaults to 1.0". -/
def specFitness (previous : ℚ) (result : List (String × ℚ)) : ℚ :=
  let matching := result.filter fun p => hot_paths.any fun hp => strContains p.1 hp
  previous * (if matching.length = 0 then 1 else ((matching.map Prod.snd).sum / (matching.length : ℚ)))

/-- Stated from the spec's words (claim C8): the candidate ordering
"descending by expected_total_gain, ties between equal-gain candidates
broken by the fixed power-set enumeration order", as a strict-priority
comparison on enumeration-indexed candidates. -/
abbrev specOrder (p q : Nat × OptimizationCandidate) : Prop :=
  expected_total_gain q.2 < expected_total_gain p.2 ∨
    (expected_total_gain p.2 = expected_total_gain q.2 ∧ p.1 ≤ q.1)

/-- Stated from the spec's words (claim C8): the top-`budget` candidates of
the power-set enumeration under `specOrder`. -/
def specTopCandidates (budget : Nat) : List OptimizationCandidate :=
  ((List.insertionSort specOrder powerCandidates.enum).map Prod.snd).take budget

/-- Fitness reached after mock-mode step 1 (accepting opt-single-key-alloc). -/
def mockF1 : ℚ := 100 * (1 + 4/100)

/-- Fitness reached after mock-mode step 2. -/
def mockF2 : ℚ := mockF1 * (1 + 15/1000)

/-- Fitness reached after mock-mode step 3. -/
def mockF3 : ℚ := mockF2 * (1 + 25/1000)

/-- Fitness reached after mock-mode step 4. -/
def mockF4 : ℚ := mockF3 * (1 + 15/1000)

/-- Fitness reached after mock-mode step 5. -/
def mockF5 : ℚ := mockF4 * (1 + 15/1000)

/-- Fitness reached after mock-mode step 6. -/
def mockF6 : ℚ := mockF5 * (1 + 3/100)

/-- The all-enabled candidate as the mock-mode incremental run produces it. -/
def mockAllEnabled : OptimizationCandidate :=
  { enabled :=
      [ ("opt-single-key-alloc", true), ("opt-static-responses", true),
        ("opt-zero-copy-get", true), ("opt-itoa-encode", true),
        ("opt-fxhash-routing", true), ("opt-atoi-parse", true) ]
    fitness := some mockF6
    generation := 6 }

/-- History entry recorded by mock-mode step 1.  The code writes
`accepted = false` although the step was accepted. -/
def mockEntry1 : IncHistoryEntry := IncHistoryEntry.step "opt-single-key-alloc" mockF1 false mockF1

/-- History entry recorded by mock-mode step 2. -/
def mockEntry2 : IncHistoryEntry := IncHistoryEntry.step "opt-static-responses" mockF2 false mockF2

/-- History entry recorded by mock-mode step 3. -/
def mockEntry3 : IncHistoryEntry := IncHistoryEntry.step "opt-zero-copy-get" mockF3 false mockF3

/-- History entry recorded by mock-mode step 4. -/
def mockEntry4 : IncHistoryEntry := IncHistoryEntry.step "opt-itoa-encode" mockF4 false mockF4

/-- History entry recorded by mock-mode step 5. -/
def mockEntry5 : IncHistoryEntry := IncHistoryEntry.step "opt-fxhash-routing" mockF5 false mockF5

/-- History entry recorded by mock-mode step 6. -/
def mockEntry6 : IncHistoryEntry := IncHistoryEntry.step "opt-atoi-parse" mockF6 false mockF6

/-- Current/best candidate after mock-mode step 1. -/
def mockCand1 : OptimizationCandidate :=
  { enabled :=
      [ ("opt-single-key-alloc", true), ("opt-static-responses", false),
        ("opt-zero-copy-get", false), ("opt-itoa-encode", false),
        ("opt-fxhash-routing", false), ("opt-atoi-parse", false) ]
    fitness := some mockF1
    generation := 1 }

/-- Current/best candidate after mock-mode step 2. -/
def mockCand2 : OptimizationCandidate :=
  { enabled :=
      [ ("opt-single-key-alloc", true), ("opt-static-responses", true),
        ("opt-zero-copy-get", false), ("opt-itoa-encode", false),
        ("opt-fxhash-routing", false), ("opt-atoi-parse", false) ]
    fitness := some mockF2
    generation := 2 }

/-- Current/best candidate after mock-mode step 3. -/
def mockCand3 : OptimizationCandidate :=
  { enabled :=
      [ ("opt-single-key-alloc", true), ("opt-static-responses", true),
        ("opt-zero-copy-get", true), ("opt-itoa-encode", false),
        ("opt-fxhash-routing", false), ("opt-atoi-parse", false) ]
    fitness := some mockF3
    generation := 3 }

/-- Current/best candidate after mock-mode step 4. -/
def mockCand4 : OptimizationCandidate :=
  { enabled :=
      [ ("opt-single-key-alloc", true), ("opt-static-responses", true),
        ("opt-zero-copy-get", true), ("opt-itoa-encode", true),
        ("opt-fxhash-routing", false), ("opt-atoi-parse", false) ]
    fitness := some mockF4
    generation := 4 }

/-- Current/best candidate after mock-mode step 5. -/
def mockCand5 : OptimizationCandidate :=
  { enabled :=
      [ ("opt-single-key-alloc", true), ("opt-static-responses", true),
        ("opt-zero-copy-get", true), ("opt-itoa-encode", true),
        ("opt-fxhash-routing", true), ("opt-atoi-parse", false) ]
    fitness := some mockF5
    generation := 5 }

/-- Loop state after mock-mode step 1. -/
def mockState1 : IncState := ⟨mockCand1, mockCand1, [mockEntry1], []⟩

/-- Loop state after mock-mode step 2. -/
def mockState2 : IncState := ⟨mockCand2, mockCand2, [mockEntry1, mockEntry2], []⟩

/-- Loop state after mock-mode step 3. -/
def mockState3 : IncState := ⟨mockCand3, mockCand3, [mockEntry1, mockEntry2, mockEntry3], []⟩

/-- Loop state after mock-mode step 4. -/
def mockState4 : IncState :=
  ⟨mockCand4, mockCand4, [mockEntry1, mockEntry2, mockEntry3, mockEntry4], []⟩

/-- Loop state after mock-mode step 5. -/
def mockState5 : IncState :=
  ⟨mockCand5, mockCand5, [mockEntry1, mockEntry2, mockEntry3, mockEntry4, mockEntry5], []⟩

/-- The final state of the mock-mode (`use_criterion = False`) incremental
run, as computed below in `mock_run_eq`.  Note every `accepted` field the
code records is `false`, even though every step was in fact accepted. -/
def mockFinal : IncState :=
  ⟨mockAllEnabled, mockAllEnabled,
    [mockEntry1, mockEntry2, mockEntry3, mockEntry4, mockEntry5, mockEntry6], []⟩

lemma incStep_mock (st : IncState) (opt : CodeOptimization) (out : EvalOutcome) (f : ℚ)
    (hf : st.current.fitness.getD 0 = f) (h : f * (1 + opt.expected_gain) > f) :
    incStep false out st opt =
      { current :=
          { enabled := dictSet st.current.enabled opt.name true
            fitness := some (f * (1 + opt.expected_gain))
            generation := opt.priority + 1 }
        best :=
          { enabled := dictSet st.current.enabled opt.name true
            fitness := some (f * (1 + opt.expected_gain))
            generation := opt.priority + 1 }
        history := st.history ++
          [IncHistoryEntry.step opt.name (f * (1 + opt.expected_gain)) false
            (f * (1 + opt.expected_gain))]
        evalCalls := st.evalCalls } := by
  show incAccept st
      { testCandidate st opt with
        fitness := some (fitval st.current * (1 + opt.expected_gain)) } opt = _
  simp only [incAccept, testCandidate, fitval, Option.getD_some, hf, gt_iff_lt,
    lt_self_iff_false, decide_False, h, if_true]

lemma mock_run_eq (b : ExternalRun) (o : Nat → EvalOutcome) :
    runIncremental false b o = Except.ok mockFinal := by
  have s1 : incStep false (o 0) incInit optSingleKeyAlloc = mockState1 :=
    (incStep_mock incInit optSingleKeyAlloc (o 0) 100 rfl
      (by norm_num [optSingleKeyAlloc])).trans rfl
  have s2 : incStep false (o 1) mockState1 optStaticResponses = mockState2 :=
    (incStep_mock mockState1 optStaticResponses (o 1) mockF1 rfl
      (by norm_num [optStaticResponses, mockF1])).trans rfl
  have s3 : incStep false (o 2) mockState2 optZeroCopyGet = mockState3 :=
    (incStep_mock mockState2 optZeroCopyGet (o 2) mockF2 rfl
      (by norm_num [optZeroCopyGet, mockF2, mockF1])).trans rfl
  have s4 : incStep false (o 3) mockState3 optItoaEncode = mockState4 :=
    (incStep_mock mockState3 optItoaEncode (o 3) mockF3 rfl
      (by norm_num [optItoaEncode, mockF3, mockF2, mockF1])).trans rfl
  have s5 : incStep false (o 4) mockState4 optFxhashRouting = mockState5 :=
    (incStep_mock mockState4 optFxhashRouting (o 4) mockF4 rfl
      (by norm_num [optFxhashRouting, mockF4, mockF3, mockF2, mockF1])).trans rfl
  have s6 : incStep false (o 5) mockState5 optAtoiParse = mockFinal :=
    (incStep_mock mockState5 optAtoiParse (o 5) mockF5 rfl
      (by norm_num [optAtoiParse, mockF5, mockF4, mockF3, mockF2, mockF1])).trans rfl
  show Except.ok (incLoop false o 0 optsByPriority incInit) = _
  rw [show optsByPriority =
        [optSingleKeyAlloc, optStaticResponses, optZeroCopyGet,
         optItoaEncode, optFxhashRouting, optAtoiParse] from rfl]
  simp only [incLoop]
  rw [s1, s2, s3, s4, s5, s6]

/-- C4: in the incremental strategy the history entry of a completed step is
claimed to carry `accepted = true` exactly when the tested candidate
replaced `current`.  The code instead evaluates `test.fitness >
current.fitness` after `current = test`, so an accepted step is recorded
with `accepted = false`: in the mock-mode run the first step tests fitness
104 against 100 (an accepted, strict improvement, and `current_best`
becomes 104), yet the recorded flag is `false`. -/
theorem C4_history_accept_flag (b : ExternalRun) (o : Nat → EvalOutcome) :
    ∃ st, runIncremental false b o = Except.ok st
      ∧ st.history.head? = some (IncHistoryEntry.step "opt-single-key-alloc" 104 false 104)
      ∧ (104 : ℚ) > 100 := by
  refine ⟨mockFinal, mock_run_eq b o, ?_, by norm_num⟩
  have h : mockFinal.history.head? = some mockEntry1 := rfl
  rw [h, mockEntry1]
  norm_num [mockF1]

/-- C10: in mock mode the incremental strategy accepts every optimization:
the returned best candidate has every registry optimization enabled, its
fitness is 100 times the product of (1 + expected_gain) over the registry,
and the tested fitness of each step strictly exceeds the pre-step current
fitness (the sequence 100, f1, ..., f6 is strictly increasing). -/
theorem C10_mock_run_accepts_all (b : ExternalRun) (o : Nat → EvalOutcome) :
    ∃ st, runIncremental false b o = Except.ok st
      ∧ st.best.enabled = CODE_OPTIMIZATIONS.map (fun p => (p.1, true))
      ∧ st.best.fitness
          = some (100 * ((CODE_OPTIMIZATIONS.map fun p => 1 + p.2.expected_gain).prod))
      ∧ List.Chain' (· < ·) ((100 : ℚ) :: st.history.map IncHistoryEntry.tested) := by
  refine ⟨mockFinal, mock_run_eq b o, rfl, ?_, ?_⟩
  · show some mockF6 = _
    norm_num [mockF6, mockF5, mockF4, mockF3, mockF2, mockF1, CODE_OPTIMIZATIONS,
      optSingleKeyAlloc, optStaticResponses, optZeroCopyGet, optItoaEncode,
      optFxhashRouting, optAtoiParse, List.prod_cons, List.prod_nil]
  · have h : mockFinal.history.map IncHistoryEntry.tested
        = [mockF1, mockF2, mockF3, mockF4, mockF5, mockF6] := rfl
    rw [h]
    norm_num [List.chain'_cons, mockF6, mockF5, mockF4, mockF3, mockF2, mockF1]

/-- C6: the claim says finalizing with no best candidate records the
baseline candidate as best; the code instead records a null best (and an
empty feature list, and writes no script).  It does not crash, but the
recorded best is `none`, not the baseline. -/
theorem C6_counterexample :
    (save_results none ([] : List Unit)).best_candidate = none
    ∧ (save_results none ([] : List Unit)).best_candidate
        ≠ some (to_dict OptimizationCandidate.baseline)
    ∧ (save_results none ([] : List Unit)).script = none :=
  ⟨rfl, by simp [save_results], rfl⟩

/-- C6 amended: `_save_results` is safe to call with an absent best (it is
total and returns a snapshot), but the terminal snapshot then carries a
null best candidate, an empty feature list, the unchanged history, and no
script artifact — the baseline candidate is not substituted. -/
theorem C6_amended {α : Type} (history : List α) :
    save_results none history =
      { best_candidate := none, best_features := [], history := history, script := none } :=
  rfl

/-- C3: the claim says `feature_flags()` returns the enabled names in a
fixed sorted order independent of the map's insertion order.  The code
returns them in the dict's own iteration order: two candidates whose
`enabled` maps are permutations of each other (same enabled-name set)
yield different flag lists. -/
theorem C3_counterexample :
    let c1 : OptimizationCandidate :=
      ⟨[("opt-single-key-alloc", true), ("opt-static-responses", true),
        ("opt-zero-copy-get", false), ("opt-itoa-encode", false),
        ("opt-fxhash-routing", false), ("opt-atoi-parse", false)], none, 0⟩
    let c2 : OptimizationCandidate :=
      ⟨[("opt-atoi-parse", false), ("opt-fxhash-routing", false),
        ("opt-itoa-encode", false), ("opt-zero-copy-get", false),
        ("opt-static-responses", true), ("opt-single-key-alloc", true)], none, 0⟩
    c1.enabled.Perm c2.enabled
    ∧ c1.feature_flags.Perm c2.feature_flags
    ∧ c1.feature_flags ≠ c2.feature_flags := by
  refine ⟨by decide, by decide, by decide⟩

/-- C3 amended: `feature_flags()` returns exactly the enabled optimization
names, but in the `enabled` map's own insertion/iteration order (a sublist
of the map's key sequence), not in a canonical sorted order. -/
theorem C3_amended (c : OptimizationCandidate) :
    (∀ name, name ∈ c.feature_flags ↔ (name, true) ∈ c.enabled)
    ∧ c.feature_flags.Sublist (c.enabled.map Prod.fst) := by
  constructor
  · intro name
    constructor
    · intro h
      rcases List.mem_map.mp h with ⟨p, hp, hname⟩
      rcases List.mem_filter.mp hp with ⟨hmem, hb⟩
      have hpair : p = (name, true) := Prod.ext hname hb
      exact hpair ▸ hmem
    · intro h
      exact List.mem_map.mpr ⟨(name, true), List.mem_filter.mpr ⟨h, rfl⟩, rfl⟩
  · exact (List.filter_sublist c.enabled).map Prod.fst

/-- C1: the claim says a benchmark present in the candidate's fresh run but
absent from the cached baseline is omitted from the returned result.  The
code instead assigns it the default ratio 1.0 (source line 186): with
baseline containing only set_direct, a fresh run containing a new benchmark
yields a result that still contains the new benchmark, mapped to 1.0. -/
theorem C1_counterexample :
    evaluate ⟨some [("hot_paths/set_direct", 10)]⟩ OptimizationCandidate.baseline
        ⟨false, 0, [("hot_paths/set_direct", 5), ("hot_paths/new_bench", 7)]⟩ ⟨false, 0, []⟩
      = Except.ok (⟨some [("hot_paths/set_direct", 10)]⟩,
          relativeResults [("hot_paths/set_direct", 10)]
            [("hot_paths/set_direct", 5), ("hot_paths/new_bench", 7)])
    ∧ lookup [("hot_paths/set_direct", 10)] "hot_paths/new_bench" = none
    ∧ lookup
        (relativeResults [("hot_paths/set_direct", 10)]
          [("hot_paths/set_direct", 5), ("hot_paths/new_bench", 7)])
        "hot_paths/new_bench" = some 1 :=
  ⟨rfl, by decide, by decide⟩

/-- C1 amended: a benchmark identifier absent from the cached baseline is
not omitted from the result of `evaluate`; it is included with the default
ratio 1.0. -/
theorem C1_amended (ev : CriterionEvaluator) (cand : OptimizationCandidate)
    (candRun baseRun : ExternalRun) (base results : List (String × ℚ))
    (hbase : ev.baseline_results = some base)
    (hrun : run_criterion_bench candRun = Except.ok results) :
    evaluate ev cand candRun baseRun = Except.ok (ev, relativeResults base results)
    ∧ ∀ p ∈ results, lookup base p.1 = none →
        (p.1, (1 : ℚ)) ∈ relativeResults base results := by
  constructor
  · simp [evaluate, hrun, hbase]
  · intro p hp hnone
    simp only [relativeResults]
    refine List.mem_map.mpr ⟨p, hp, ?_⟩
    simp only [hnone]

/-- Witness for C1 amended at a concrete input: a fresh run containing only
a benchmark unknown to the baseline still produces an entry for it, with
ratio 1.0. -/
theorem C1_witness :
    evaluate ⟨some [("hot_paths/set_direct", 10)]⟩ OptimizationCandidate.all_enabled
        ⟨false, 0, [("hot_paths/new_bench", 7)]⟩ ⟨false, 0, []⟩
      = Except.ok (⟨some [("hot_paths/set_direct", 10)]⟩,
          relativeResults [("hot_paths/set_direct", 10)] [("hot_paths/new_bench", 7)])
    ∧ (("hot_paths/new_bench", (1 : ℚ))
        ∈ relativeResults [("hot_paths/set_direct", 10)] [("hot_paths/new_bench", 7)]) := by
  have h := C1_amended ⟨some [("hot_paths/set_direct", 10)]⟩ OptimizationCandidate.all_enabled
    ⟨false, 0, [("hot_paths/new_bench", 7)]⟩ ⟨false, 0, []⟩
    [("hot_paths/set_direct", 10)] [("hot_paths/new_bench", 7)] rfl rfl
  exact ⟨h.1, h.2 ("hot_paths/new_bench", 7) (by decide) (by decide)⟩

/-- C9: for a benchmark present in both the fresh run and the baseline the
emitted ratio is `baseline / candidate_time` when the candidate time is
positive, and exactly 1.0 when the candidate time is zero or negative —
the division is guarded, so no infinity and no crash. -/
theorem C9_ratio_guard (base results : List (String × ℚ)) (p : String × ℚ) (b : ℚ)
    (hp : p ∈ results) (hb : lookup base p.1 = some b) :
    (p.1, if (0 : ℚ) < p.2 then b / p.2 else 1) ∈ relativeResults base results
    ∧ ((0 : ℚ) < p.2 → (p.1, b / p.2) ∈ relativeResults base results)
    ∧ (p.2 ≤ 0 → (p.1, (1 : ℚ)) ∈ relativeResults base results) := by
  have hmem : (p.1, if (0 : ℚ) < p.2 then b / p.2 else 1) ∈ relativeResults base results := by
    simp only [relativeResults]
    refine List.mem_map.mpr ⟨p, hp, ?_⟩
    simp only [hb]
  refine ⟨hmem, ?_, ?_⟩
  · intro hpos
    have h2 := hmem
    rwa [if_pos hpos] at h2
  · intro hnp
    have h2 := hmem
    rwa [if_neg (not_lt.mpr hnp)] at h2

/-- Witness for C9 at a concrete input: a benchmark whose candidate time is
zero receives ratio exactly 1.0 (no division by zero). -/
theorem C9_witness :
    (("hot_paths/set_direct", (1 : ℚ))
      ∈ relativeResults [("hot_paths/set_direct", 10)] [("hot_paths/set_direct", 0)]) :=
  (C9_ratio_guard [("hot_paths/set_direct", 10)] [("hot_paths/set_direct", 0)]
    ("hot_paths/set_direct", 0) 10 (by decide) (by decide)).2.2 (le_refl 0)

/-- C2: the claim says a non-zero exit or timeout of the baseline run makes
`capture_baseline` fail fatally, and that a baseline failure never
silently yields neutral (1.0) candidate ratios.  On a non-zero exit the
code instead logs, returns the empty mapping, and caches it: the baseline
capture succeeds with `{}`, and a subsequent candidate evaluation maps
every benchmark to ratio 1.0; the incremental run is not terminated. -/
theorem C2_counterexample :
    capture_baseline ⟨none⟩ ⟨false, 1, [("hot_paths/set_direct", 5)]⟩
      = Except.ok (⟨some []⟩, [])
    ∧ evaluate ⟨some []⟩ OptimizationCandidate.all_enabled
        ⟨false, 0, [("hot_paths/set_direct", 4)]⟩ ⟨false, 0, []⟩
      = Except.ok (⟨some []⟩, [("hot_paths/set_direct", 1)])
    ∧ ∃ st, runIncremental true ⟨false, 1, []⟩ (fun _ => EvalOutcome.ok [])
        = Except.ok st :=
  ⟨rfl, rfl, ⟨_, rfl⟩⟩

/-- C2 amended: a TIMEOUT of the baseline run does propagate fatally (from
`capture_baseline`, and `run_incremental` terminates before testing any
candidate), but a NON-ZERO EXIT makes `capture_baseline` return the empty
mapping without error; every subsequent candidate evaluation against the
cached empty baseline then emits ratio 1.0 for all of its benchmarks, and
the search proceeds. -/
theorem C2_amended :
    (∀ (ev : CriterionEvaluator) (run : ExternalRun), run.timedOut = true →
        capture_baseline ev run = Except.error BenchError.timeout)
    ∧ (∀ (ev : CriterionEvaluator) (run : ExternalRun),
        run.timedOut = false → run.returncode ≠ 0 →
        capture_baseline ev run = Except.ok (⟨some []⟩, []))
    ∧ (∀ (results : List (String × ℚ)) (cand : OptimizationCandidate)
        (candRun baseRun : ExternalRun),
        run_criterion_bench candRun = Except.ok results →
        evaluate ⟨some []⟩ cand candRun baseRun
          = Except.ok (⟨some []⟩, results.map fun p => (p.1, (1 : ℚ))))
    ∧ (∀ (oracle : Nat → EvalOutcome) (run : ExternalRun), run.timedOut = true →
        runIncremental true run oracle = Except.error BenchError.timeout) := by
  refine ⟨?_, ?_, ?_, ?_⟩
  · intro ev run h
    simp [capture_baseline, run_criterion_bench, h]
  · intro ev run h1 h2
    simp [capture_baseline, run_criterion_bench, h1, h2]
  · intro results cand candRun baseRun h
    simp [evaluate, h, relativeResults, lookup]
  · intro oracle run h
    simp [runIncremental, run_criterion_bench, h]

/-- Witness for C2 amended at concrete inputs: a timed-out baseline run
fails the capture and the whole incremental run; an exit-code-1 baseline
run "succeeds" with the empty mapping; evaluating a candidate against the
empty baseline yields ratio 1.0. -/
theorem C2_witness :
    capture_baseline ⟨none⟩ ⟨true, 0, []⟩ = Except.error BenchError.timeout
    ∧ capture_baseline ⟨none⟩ ⟨false, 1, []⟩ = Except.ok (⟨some []⟩, [])
    ∧ evaluate ⟨some []⟩ OptimizationCandidate.baseline
        ⟨false, 0, [("get_direct/hot", 5)]⟩ ⟨false, 0, []⟩
      = Except.ok (⟨some []⟩, [("get_direct/hot", (1 : ℚ))])
    ∧ runIncremental true ⟨true, 0, []⟩ (fun _ => EvalOutcome.ok [])
        = Except.error BenchError.timeout := by
  refine ⟨C2_amended.1 _ _ rfl, C2_amended.2.1 _ _ rfl (by decide), ?_,
    C2_amended.2.2.2 _ _ rfl⟩
  exact C2_amended.2.2.1 [("get_direct/hot", 5)] OptimizationCandidate.baseline
    ⟨false, 0, [("get_direct/hot", 5)]⟩ ⟨false, 0, []⟩ rfl

lemma incStep_fail (st : IncState) (opt : CodeOptimization) (msg : String) :
    incStep true (EvalOutcome.fail msg) st opt
      = { st with history := st.history ++ [IncHistoryEntry.error opt.name msg],
                  evalCalls := st.evalCalls ++ [testCandidate st opt] } := rfl

lemma combStep_fail (st : CombState) (cand : OptimizationCandidate) (msg : String) :
    combStep true (EvalOutcome.fail msg) st cand
      = { st with evalCalls := st.evalCalls ++ [cand] } := rfl

lemma incStep_history_length (u : Bool) (out : EvalOutcome) (st : IncState)
    (opt : CodeOptimization) :
    (incStep u out st opt).history.length = st.history.length + 1 := by
  cases u <;> cases out <;> simp [incStep, incAccept, testCandidate]

lemma incStep_evalCalls_length (out : EvalOutcome) (st : IncState) (opt : CodeOptimization) :
    (incStep true out st opt).evalCalls.length = st.evalCalls.length + 1 := by
  cases out <;> simp [incStep, incAccept, testCandidate]

lemma incLoop_history_length (u : Bool) (oracle : Nat → EvalOutcome) :
    ∀ (l : List CodeOptimization) (i : Nat) (st : IncState),
      (incLoop u oracle i l st).history.length = st.history.length + l.length
  | [], _, _ => by simp [incLoop]
  | opt :: rest, i, st => by
    rw [incLoop, incLoop_history_length u oracle rest (i + 1) _, incStep_history_length]
    simp [Nat.add_assoc, Nat.add_comm 1 rest.length]

lemma incLoop_evalCalls_length (oracle : Nat → EvalOutcome) :
    ∀ (l : List CodeOptimization) (i : Nat) (st : IncState),
      (incLoop true oracle i l st).evalCalls.length = st.evalCalls.length + l.length
  | [], _, _ => by simp [incLoop]
  | opt :: rest, i, st => by
    rw [incLoop, incLoop_evalCalls_length oracle rest (i + 1) _, incStep_evalCalls_length]
    simp [Nat.add_assoc, Nat.add_comm 1 rest.length]

lemma combStep_evalCalls (out : EvalOutcome) (st : CombState) (cand : OptimizationCandidate) :
    (combStep true out st cand).evalCalls = st.evalCalls ++ [cand] := by
  cases out <;> simp [combStep, combRecord]

lemma combLoop_evalCalls (oracle : Nat → EvalOutcome) :
    ∀ (l : List OptimizationCandidate) (i : Nat) (st : CombState),
      (combLoop true oracle i l st).evalCalls = st.evalCalls ++ l
  | [], _, _ => by simp [combLoop]
  | cand :: rest, i, st => by
    rw [combLoop, combLoop_evalCalls oracle rest (i + 1) _, combStep_evalCalls]
    simp

lemma combLoop_all_fail (msg : String) :
    ∀ (l : List OptimizationCandidate) (i : Nat) (st : CombState),
      combLoop true (fun _ => EvalOutcome.fail msg) i l st
        = { st with evalCalls := st.evalCalls ++ l }
  | [], _, st => by simp [combLoop]
  | cand :: rest, i, st => by
    rw [combLoop, combStep_fail, combLoop_all_fail msg rest (i + 1) _]
    simp

lemma avg_specFitness (prev : ℚ) (rel : List (String × ℚ)) :
    prev * avg_improvement rel = specFitness prev rel := by
  by_cases h : (rel.filter fun p => hot_paths.any fun hp => strContains p.1 hp) = [] <;>
    simp [avg_improvement, specFitness, h, List.length_map]

lemma powerCandidates_length : powerCandidates.length = 64 := by decide

lemma budgetedCandidates_length (budget : Nat) :
    (budgetedCandidates budget).length = min budget 64 := by
  rw [budgetedCandidates, List.length_take, List.length_insertionSort, powerCandidates_length]

/-- C5: the claim says a failed evaluation leaves exactly one error-flagged
ledger entry in BOTH strategies.  True for the incremental strategy, but
the combinatorial strategy's `except` block (source lines 409-410) only
logs: with every evaluation failing, a budget-1 combinatorial run records
NO history entry at all for the failed candidate even though it was
evaluated (one evaluate call). -/
theorem C5_counterexample :
    (runCombinatorial true 1 (fun _ => EvalOutcome.fail "benchmark failed")).history = []
    ∧ (runCombinatorial true 1 (fun _ => EvalOutcome.fail "benchmark failed")).evalCalls.length
        = 1 := by
  have h : runCombinatorial true 1 (fun _ => EvalOutcome.fail "benchmark failed")
      = { best := none, history := [],
          evalCalls := ([] : List OptimizationCandidate) ++ budgetedCandidates 1 } :=
    combLoop_all_fail "benchmark failed" (budgetedCandidates 1) 0 ⟨none, [], []⟩
  rw [h]
  refine ⟨rfl, ?_⟩
  simp [budgetedCandidates_length]

/-- C5 amended: an `EvaluationFailed` at one candidate never aborts either
run and never touches the running best or current state; every candidate is
still evaluated (one evaluate call per step, six in the incremental run,
the full budgeted list in the combinatorial run) and every incremental step
appends exactly one entry (an error-flagged one exactly for the failed
step); but only the INCREMENTAL strategy records an error entry — the
combinatorial strategy records nothing for the failed candidate. -/
theorem C5_amended :
    (∀ (st : IncState) (opt : CodeOptimization) (msg : String),
        incStep true (EvalOutcome.fail msg) st opt
          = { st with history := st.history ++ [IncHistoryEntry.error opt.name msg],
                      evalCalls := st.evalCalls ++ [testCandidate st opt] })
    ∧ (∀ (st : IncState) (opt : CodeOptimization) (rel : List (String × ℚ)),
        (incStep true (EvalOutcome.ok rel) st opt).history.map
            (fun e => (e.isError, e.tested))
          = st.history.map (fun e => (e.isError, e.tested))
            ++ [(false, fitval st.current * avg_improvement rel)])
    ∧ (∀ oracle : Nat → EvalOutcome,
        (incLoop true oracle 0 optsByPriority incInit).history.length = 6
        ∧ (incLoop true oracle 0 optsByPriority incInit).evalCalls.length = 6)
    ∧ (∀ (st : CombState) (cand : OptimizationCandidate) (msg : String),
        combStep true (EvalOutcome.fail msg) st cand
          = { st with evalCalls := st.evalCalls ++ [cand] })
    ∧ (∀ (oracle : Nat → EvalOutcome) (budget : Nat),
        (runCombinatorial true budget oracle).evalCalls = budgetedCandidates budget) := by
  refine ⟨incStep_fail, ?_, ?_, combStep_fail, ?_⟩
  · intro st opt rel
    simp [incStep, incAccept, testCandidate, fitval, IncHistoryEntry.isError,
      IncHistoryEntry.tested]
  · intro oracle
    constructor
    · rw [incLoop_history_length]
      rfl
    · rw [incLoop_evalCalls_length]
      rfl
  · intro oracle budget
    rw [runCombinatorial, combLoop_evalCalls]
    rfl

/-- C7: in both strategies the fitness assigned from an EvaluationResult is
exactly the spec's reduction `previous_fitness * mean(ratio of benchmarks
whose id contains a hot substring)`, defaulting to a neutral mean of 1.0
when nothing matches; the incremental step compounds on the current
fitness, the combinatorial step on the fixed baseline reference 100. -/
theorem C7_fitness_reduction :
    (∀ (previous : ℚ) (rel : List (String × ℚ)),
        previous * avg_improvement rel = specFitness previous rel)
    ∧ (∀ (st : IncState) (opt : CodeOptimization) (rel : List (String × ℚ)),
        (incStep true (EvalOutcome.ok rel) st opt).history.map IncHistoryEntry.tested
          = st.history.map IncHistoryEntry.tested ++ [specFitness (fitval st.current) rel])
    ∧ (∀ (st : CombState) (cand : OptimizationCandidate) (rel : List (String × ℚ)),
        (combStep true (EvalOutcome.ok rel) st cand).history.map CombHistoryEntry.fitness
          = st.history.map CombHistoryEntry.fitness ++ [specFitness 100 rel]) := by
  refine ⟨avg_specFitness, ?_, ?_⟩
  · intro st opt rel
    rw [← avg_specFitness]
    simp [incStep, incAccept, testCandidate, fitval, IncHistoryEntry.tested]
  · intro st cand rel
    rw [← avg_specFitness]
    simp [combStep, combRecord, fitval]

lemma map_snd_orderedInsert {α : Type} (r₁ : α → α → Prop) (r₂ : Nat × α → Nat × α → Prop)
    [DecidableRel r₁] [DecidableRel r₂] (i : Nat) (x : α)
    (hiff : ∀ j y, i < j → (r₂ (i, x) (j, y) ↔ r₁ x y)) :
    ∀ s : List (Nat × α), (∀ p ∈ s, i < p.1) →
      (List.orderedInsert r₂ (i, x) s).map Prod.snd
        = List.orderedInsert r₁ x (s.map Prod.snd)
  | [], _ => rfl
  | (j, y) :: t, hs => by
    have hij : i < j := hs (j, y) (List.mem_cons_self _ _)
    rw [List.map_cons, List.orderedInsert, List.orderedInsert]
    by_cases h : r₂ (i, x) (j, y)
    · rw [if_pos h, if_pos ((hiff j y hij).mp h)]
      simp
    · rw [if_neg h, if_neg (fun hc => h ((hiff j y hij).mpr hc))]
      rw [List.map_cons,
        map_snd_orderedInsert r₁ r₂ i x hiff t (fun p hp => hs p (List.mem_cons_of_mem _ hp))]

lemma map_snd_insertionSort {α : Type} (r₁ : α → α → Prop) (r₂ : Nat × α → Nat × α → Prop)
    [DecidableRel r₁] [DecidableRel r₂]
    (hiff : ∀ i x j y, i < j → (r₂ (i, x) (j, y) ↔ r₁ x y)) :
    ∀ l : List (Nat × α), List.Pairwise (fun p q => p.1 < q.1) l →
      (List.insertionSort r₂ l).map Prod.snd = List.insertionSort r₁ (l.map Prod.snd)
  | [], _ => rfl
  | (i, x) :: t, hp => by
    rw [List.map_cons, List.insertionSort, List.insertionSort]
    have hmem : ∀ p ∈ List.insertionSort r₂ t, i < p.1 := fun p hm =>
      (List.pairwise_cons.mp hp).1 p ((List.perm_insertionSort r₂ t).mem_iff.mp hm)
    rw [map_snd_orderedInsert r₁ r₂ i x (fun j y h => hiff i x j y h) _ hmem,
      map_snd_insertionSort r₁ r₂ hiff t (List.pairwise_cons.mp hp).2]

lemma enum_pairwise_fst {α : Type} (l : List α) :
    List.Pairwise (fun p q : Nat × α => p.1 < q.1) l.enum := by
  have h := List.pairwise_lt_range l.length
  rw [← List.enum_map_fst l] at h
  exact List.pairwise_map.mp h

lemma specOrder_gainOrder (i : Nat) (x : OptimizationCandidate) (j : Nat)
    (y : OptimizationCandidate) (hij : i < j) :
    specOrder (i, x) (j, y) ↔ gainOrder x y := by
  constructor
  · rintro (h | ⟨he, _⟩)
    · exact le_of_lt h
    · exact le_of_eq he.symm
  · intro h
    rcases lt_or_eq_of_le h with h' | h'
    · exact Or.inl h'
    · exact Or.inr ⟨h'.symm, le_of_lt hij⟩

lemma sorted_candidates_eq :
    List.insertionSort gainOrder powerCandidates
      = (List.insertionSort specOrder powerCandidates.enum).map Prod.snd := by
  rw [map_snd_insertionSort gainOrder specOrder specOrder_gainOrder powerCandidates.enum
      (enum_pairwise_fst powerCandidates), List.enum_map_snd]

/-- C8: the combinatorial strategy never evaluates more candidates than the
budget, and the evaluated sequence is exactly the top-budget prefix of the
power-set enumeration ordered descending by `expected_total_gain` with ties
broken by the enumeration order (the spec-worded `specTopCandidates`). -/
theorem C8_budget_and_order (budget : Nat) (oracle : Nat → EvalOutcome) :
    (runCombinatorial true budget oracle).evalCalls = specTopCandidates budget
    ∧ (runCombinatorial true budget oracle).evalCalls.length ≤ budget := by
  have h : (runCombinatorial true budget oracle).evalCalls = budgetedCandidates budget := by
    rw [runCombinatorial, combLoop_evalCalls]
    rfl
  constructor
  · rw [h, budgetedCandidates, specTopCandidates, sorted_candidates_eq]
  · rw [h, budgetedCandidates]
    exact List.length_take_le _ _
